import Mathlib

/-!
Verification of the swingfi-backend event listeners.

The repository contains two variants of the same listener script:
* `src/unnamed/part_000` (the current listener: retry logic in the ledger
  writer, lowercased addresses, `Number(x) || 0` delta coercion, USDT scale
  chosen by `networkName == "BSC"`), embedded below at top level;
* `src/a.js` (a legacy variant: no retry, addresses stored as-is, `+=` on
  values fetched from the store, USDT scale chosen by
  `networkName == "bnbt"`), embedded in namespace `AJs`.

JavaScript numbers are modelled as exact rationals (`JSNum.fin`) together
with `NaN` and the two infinities; IEEE-754 rounding of doubles is not
modelled.  This idealization is kept away from the theorems in three ways:

* every concrete value appearing in a theorem is exactly representable as a
  double (and `Number(String(x)) === x` holds for every double, which
  justifies storing a `user_deposits` column by its numeric value — the
  code writes `v.toString()` and re-reads it with `Number(...)`);
* the ledger invariant (C1) equates the stored total with a left fold of
  the recorded amounts using the very same `jsAdd` and `Number(x) || 0`
  that the aggregator applies, so both sides of the equation denote the
  identical sequence of JavaScript operations and any deviation between
  exact and rounded arithmetic cancels (IEEE `0 + x = x` makes the fold's
  zero seed exact, and JS `x + 0 = x` for the non-matching payment types);
* quantified bounds (C8) keep a factor-10 margin below the `10^21`
  `toFixed` cutoff, so double rounding (relative error `2^-53`) cannot
  move a value across the branch the bound selects.
-/

/-- JavaScript number: an exact rational, NaN, or an infinity. -/
inductive JSNum where
  | fin (q : ℚ)
  | nan
  | inf
  | neginf
deriving DecidableEq, Repr

/-- JavaScript `+` on numbers, idealized to exact rational addition (real
doubles round: `0.1 + 0.2` is `0.30000000000000004`).  Every theorem below
either evaluates it at exactly-representable doubles or applies it
identically on both sides of an equation, where the rounding cancels. -/
def jsAdd : JSNum → JSNum → JSNum
  | .fin p, .fin q => .fin (p + q)
  | .nan, _ => .nan
  | _, .nan => .nan
  | .inf, .neginf => .nan
  | .neginf, .inf => .nan
  | .inf, _ => .inf
  | _, .inf => .inf
  | .neginf, _ => .neginf
  | _, .neginf => .neginf

/-- Falsiness of a JavaScript number: `0` and `NaN` are falsy. -/
def jsFalsy : JSNum → Bool
  | .fin q => decide (q = 0)
  | .nan => true
  | .inf => false
  | .neginf => false

/-- JavaScript `a || b` restricted to numbers. -/
def jsOr (a b : JSNum) : JSNum := if jsFalsy a then b else a

/-- JavaScript unary minus. -/
def jsNeg : JSNum → JSNum
  | .fin q => .fin (-q)
  | .nan => .nan
  | .inf => .neginf
  | .neginf => .inf

/-- A JavaScript value as it flows through the listener: a number or a string. -/
inductive JSVal where
  | num (x : JSNum)
  | str (s : String)
deriving DecidableEq, Repr

/-- Little-endian base-10 digits with explicit fuel (kernel-reducible). -/
def digitListAux : ℕ → ℕ → List ℕ
  | 0, _ => []
  | fuel + 1, n => if n = 0 then [] else n % 10 :: digitListAux fuel (n / 10)

/-- Little-endian base-10 digits of `n`. -/
def digitList (n : ℕ) : List ℕ := digitListAux n n

/-- Decimal digit characters of `m`, most significant first (`0` renders as `"0"`). -/
def digitsOf (m : ℕ) : List Char :=
  if m = 0 then ['0'] else (digitList m).reverse.map Nat.digitChar

/-- Left-pad a digit list with `'0'` up to length `k`. -/
def padTo (k : ℕ) (ds : List Char) : List Char :=
  List.replicate (k - ds.length) '0' ++ ds

/-- Drop trailing `'0'` characters. -/
def stripTrailingZeros (l : List Char) : List Char :=
  (l.reverse.dropWhile (fun c => c == '0')).reverse

/-- Smallest exponent `k` with `q.den ∣ 10 ^ k` (searched up to 400; every
value produced by this model has a denominator dividing a power of ten). -/
def denExp (q : ℚ) : ℕ :=
  ((List.range 400).find? (fun j => decide (q.den ∣ 10 ^ j))).getD 0

/-- Exact plain-decimal rendering of a non-negative rational, as ECMAScript
`ToString` renders a double below `10^21` (no trailing fractional zeros). -/
def decRenderQ (q : ℚ) : List Char :=
  let k := denExp q
  let n := (q * 10 ^ k).num.toNat
  if n % 10 ^ k = 0 then digitsOf (n / 10 ^ k)
  else digitsOf (n / 10 ^ k) ++ '.' :: padTo k (digitsOf (n % 10 ^ k))

/-- Exponential rendering `d.ddd…e+N` used by ECMAScript `ToString` for
doubles at or above `10^21`. -/
def expRender (q : ℚ) : List Char :=
  let k := denExp q
  let n := (q * 10 ^ k).num.toNat
  let ds := digitsOf n
  let sig := stripTrailingZeros ds
  let e := ds.length - 1 - k
  (match sig with
   | [] => ['0']
   | [c] => [c]
   | c :: rest => c :: '.' :: rest) ++ 'e' :: '+' :: digitsOf e

/-- ECMAScript `ToString` of a non-negative number. -/
def jsToStringPos (q : ℚ) : String :=
  if q < 10 ^ 21 then String.mk (decRenderQ q) else String.mk (expRender q)

/-- JavaScript `x.toString()` for a number `x` (tiny-magnitude exponential
notation below `10^-6` is not modelled; no value in this pipeline is that
small and non-zero). -/
def jsToString : JSNum → String
  | .nan => "NaN"
  | .inf => "Infinity"
  | .neginf => "-Infinity"
  | .fin q => if q < 0 then "-" ++ jsToStringPos (-q) else jsToStringPos q

/-- Round half away from zero (for non-negative input: half up), as
`Number.prototype.toFixed` picks the larger of two equally near integers. -/
def halfUp (x : ℚ) : ℕ := (Int.floor (x + 1 / 2)).toNat

/-- The fixed-point body of `toFixed(6)`: integer digits, a dot, six digits. -/
def fixed6Render (n : ℕ) : List Char :=
  digitsOf (n / 10 ^ 6) ++ '.' :: padTo 6 (digitsOf (n % 10 ^ 6))

/-- `toFixed(6)` of a non-negative number: ECMAScript falls back to
`ToString` when the value is at least `10^21`. -/
def toFixed6Pos (q : ℚ) : String :=
  if 10 ^ 21 ≤ q then jsToStringPos q
  else String.mk (fixed6Render (halfUp (q * 10 ^ 6)))

/-- JavaScript `x.toFixed(6)`. -/
def toFixed6 : JSNum → String
  | .nan => "NaN"
  | .inf => "Infinity"
  | .neginf => "-Infinity"
  | .fin q => if q < 0 then "-" ++ toFixed6Pos (-q) else toFixed6Pos q

/-- Numeric value of a digit character. -/
def charsVal (l : List Char) : ℕ :=
  l.foldl (fun a c => 10 * a + (c.toNat - 48)) 0

/-- Decimal part of JavaScript `Number(string)`: optional integer digits,
optional fraction, optional exponent; anything else is `NaN`. -/
def decParse (cs : List Char) : JSNum :=
  let mant := cs.takeWhile (fun c => !(c == 'e' || c == 'E'))
  let erest := cs.dropWhile (fun c => !(c == 'e' || c == 'E'))
  let expPart : Option ℤ :=
    match erest with
    | [] => some 0
    | _ :: r =>
      match r with
      | '+' :: ds => if !ds.isEmpty && ds.all Char.isDigit then some ((charsVal ds : ℤ)) else none
      | '-' :: ds => if !ds.isEmpty && ds.all Char.isDigit then some (-(charsVal ds : ℤ)) else none
      | ds => if !ds.isEmpty && ds.all Char.isDigit then some ((charsVal ds : ℤ)) else none
  let ip := mant.takeWhile Char.isDigit
  let rest := mant.dropWhile Char.isDigit
  let fp : Option (List Char) :=
    match rest with
    | [] => some []
    | '.' :: r => if r.all Char.isDigit then some r else none
    | _ => none
  match expPart, fp with
  | some e, some f =>
    if ip.isEmpty && f.isEmpty then .nan
    else .fin (((charsVal (ip ++ f) : ℚ) / 10 ^ f.length) * (10 : ℚ) ^ e)
  | _, _ => .nan

/-- Unsigned part of `Number(string)`: `"Infinity"` or a decimal literal. -/
def unsignedParse (cs : List Char) : JSNum :=
  if cs = "Infinity".data then .inf else decParse cs

/-- JavaScript `Number(string)` on a character list (the empty string is `0`;
leading-whitespace trimming and hex literals are outside this model's scope —
no string in the pipeline uses them). -/
def parseChars (cs : List Char) : JSNum :=
  if cs = [] then .fin 0
  else if cs.head? = some '-' then jsNeg (unsignedParse cs.tail)
  else if cs.head? = some '+' then unsignedParse cs.tail
  else unsignedParse cs

/-- JavaScript `Number(string)`, idealized to the exact decimal value (the
real conversion rounds to the nearest double, so `Number("0.1")` is not
exactly 1/10).  Theorems use it at concrete exactly-representable values or
identically on both sides of an equation. -/
def parseNum (s : String) : JSNum := parseChars s.data

/-- JavaScript `Number(v)` for a number-or-string value. -/
def toNumber : JSVal → JSNum
  | .num x => x
  | .str s => parseNum s

/-- The coercion `Number(x) || 0` at the top of `updateUserDeposit`
in `src/unnamed/part_000`. -/
def coerceDelta (v : JSVal) : JSNum := jsOr (toNumber v) (.fin 0)

/-- Numeric value of a stored amount string (`NaN` and infinities read as 0,
only used where the parse is finite). -/
def valOf (s : String) : ℚ :=
  match parseNum s with
  | .fin q => q
  | _ => 0

/-- JavaScript `v.toString()` on a number-or-string value. -/
def jsValToString : JSVal → String
  | .num x => jsToString x
  | .str s => s

/-- JavaScript `a + b` on values: numeric addition unless either side is a
string, in which case both are converted to strings and concatenated. -/
def jsPlusV (a b : JSVal) : JSVal :=
  match a, b with
  | .num x, .num y => .num (jsAdd x y)
  | .num x, .str s => .str (jsToString x ++ s)
  | .str s, .num y => .str (s ++ jsToString y)
  | .str s, .str t => .str (s ++ t)

/-- JavaScript `s.toLowerCase()` (ASCII, which covers hex addresses). -/
def jsToLowerCase (s : String) : String := String.mk (s.data.map Char.toLower)

/-- The string matches `^\d+\.\d{6}$`: digits, a dot, exactly six digits. -/
def matchesAmountFormat (s : String) : Bool :=
  let ds := s.data.takeWhile Char.isDigit
  match s.data.dropWhile Char.isDigit with
  | '.' :: fs => !ds.isEmpty && fs.length == 6 && fs.all Char.isDigit
  | _ => false

/-- A row of the `user_transactions` table (§3 Transaction Record). -/
structure TxRecord where
  address : String
  transaction_hash : String
  chain_name : String
  event_name : String
  payment_type : String
  deposit_amount : String
  token_amount : String
  block_number : ℕ
  block_timestamp : ℕ
deriving DecidableEq, Repr

/-- A row of the `user_deposits` table for the current listener, holding the
numeric values of the three accumulator columns (stored via `.toString()`,
re-read via `Number(...)`; see the header note on the round trip). -/
structure DepositRow where
  total_native_deposit : JSNum
  total_usdt_deposit : JSNum
  total_token_amount : JSNum
deriving DecidableEq, Repr

/-- A decoded contract event together with its transport metadata. -/
inductive ChainEvent where
  | boughtWithNative (user : String) (tokenDeposit amount timestamp : ℕ) (txHash : String) (blockNumber : ℕ)
  | boughtWithUSDT (user : String) (tokenDeposit amount timestamp : ℕ) (txHash : String) (blockNumber : ℕ)
  | claimHistory (user : String) (amount timestamp : ℕ) (txHash : String) (blockNumber : ℕ)
deriving DecidableEq, Repr

/-- The `user`/`_user` field of an event. -/
def ChainEvent.user : ChainEvent → String
  | .boughtWithNative u _ _ _ _ _ => u
  | .boughtWithUSDT u _ _ _ _ _ => u
  | .claimHistory u _ _ _ _ => u

/-- Value of `Number(ethers.utils.formatEther(a))` for a raw wei amount `a`,
idealized to the exact rational `a / 10^18` (the real double rounds: near
the `10^21` toFixed cutoff a value within half an ULP below it, such as
`(10^39 - 1) / 10^18`, rounds up to exactly `10^21`; the C8 bound therefore
stays a factor of 10 below the cutoff). -/
def etherQ (a : ℕ) : ℚ := (a : ℚ) / 10 ^ 18

/-- Value of `Number(a.toString() / 10 ** 6)` for a raw 6-decimal amount,
idealized to the exact rational (same rounding caveat as for the scale-18
conversion, with the cutoff at raw `10^27`). -/
def usdtQ (a : ℕ) : ℚ := (a : ℚ) / 10 ^ 6

/-- The spec's `normalize(a, scale)`: divide by `10^scale` and format with
`toFixed(6)`. -/
def normalizeAmount (a : ℕ) (scale : ℕ) : String :=
  toFixed6 (.fin ((a : ℚ) / 10 ^ scale))

/-- The record inserted by `logTransactionToSupabase` in
`src/unnamed/part_000` (address lowercased; the amount arguments arrive as
already-formatted strings, so `.toString()` is the identity on them). -/
def logTransactionRecord (eventName user tokenDeposit amount paymentType transactionHash : String)
    (blockNumber timestamp : ℕ) (chainName : String) : TxRecord :=
  { address := jsToLowerCase user
    transaction_hash := transactionHash
    chain_name := chainName
    event_name := eventName
    payment_type := paymentType
    deposit_amount := tokenDeposit
    token_amount := amount
    block_number := blockNumber
    block_timestamp := timestamp * 1000 }

/-- Trace of the retry loop in `logTransactionToSupabase`
(`src/unnamed/part_000` lines 54-81): `attempts` counts insert attempts,
`sleeps` records the `setTimeout` delays, `raised` is the `throw err` that
escapes the loop when `retries` reaches 0. -/
structure WriterTrace where
  attempts : ℕ
  sleeps : List ℕ
  inserted : Bool
  raised : Bool
deriving DecidableEq, Repr

/-- The `while (retries > 0)` loop: attempt the insert; on success break; on
failure decrement `retries`, rethrow if it reached 0, otherwise wait 1000 ms
and try again.  `outcome i` tells whether attempt `i` succeeds. -/
def writerLoop (outcome : ℕ → Bool) : ℕ → ℕ → List ℕ → WriterTrace
  | 0, i, sl => { attempts := i, sleeps := sl, inserted := false, raised := true }
  | r + 1, i, sl =>
    if outcome i then { attempts := i + 1, sleeps := sl, inserted := true, raised := false }
    else if r = 0 then { attempts := i + 1, sleeps := sl, inserted := false, raised := true }
    else writerLoop outcome r (i + 1) (sl ++ [1000])

/-- Result of one `logTransactionToSupabase` call: the outer `try/catch`
turns the loop's rethrow into a logged error, so nothing ever escapes. -/
structure WriterResult where
  attempts : ℕ
  sleeps : List ℕ
  inserted : Bool
  errorLogged : Bool
  threw : Bool
deriving DecidableEq, Repr

/-- `logTransactionToSupabase` of `src/unnamed/part_000`: three attempts with
`retries = 3`, outer catch logs and swallows the final error. -/
def logTransactionToSupabase (outcome : ℕ → Bool) : WriterResult :=
  let t := writerLoop outcome 3 0 []
  { attempts := t.attempts, sleeps := t.sleeps, inserted := t.inserted,
    errorLogged := t.raised, threw := false }

/-- The pure core of `updateUserDeposit` in `src/unnamed/part_000` (lines
88-124): coerce the three deltas with `Number(x) || 0`, then either add onto
the fetched row or build a fresh row.  `existingDeposit` is the `data` field
the supabase read returned — it is `none` both when no row exists and when
the read failed, because the code destructures only `data` and never checks
the read error. -/
def updateUserDepositCompute (existingDeposit : Option DepositRow)
    (depositAmount tokenAmount usdtAmount : JSVal) (paymentType : String) : DepositRow :=
  let d := coerceDelta depositAmount
  let t := coerceDelta tokenAmount
  let u := coerceDelta usdtAmount
  match existingDeposit with
  | some ex =>
    { total_native_deposit := jsAdd ex.total_native_deposit (if paymentType = "native" then d else .fin 0)
      total_usdt_deposit := jsAdd ex.total_usdt_deposit (if paymentType = "usdt" then u else .fin 0)
      total_token_amount := jsAdd ex.total_token_amount t }
  | none =>
    { total_native_deposit := if paymentType = "native" then d else .fin 0
      total_usdt_deposit := if paymentType = "usdt" then u else .fin 0
      total_token_amount := t }

/-- Console output of a successful `updateUserDeposit` run in
`src/unnamed/part_000`: only the success line — no error is logged on the
path where the read returned an error but the upsert succeeded. -/
def updateUserDepositLogs (address : String) : List String :=
  ["User deposit updated for " ++ jsToLowerCase address]

/-- Store state seen by one listener of `src/unnamed/part_000`: the
append-only `user_transactions` log and the `user_deposits` rows keyed by
address. -/
structure ListenerState where
  ledger : List TxRecord
  rows : String → Option DepositRow

/-- `updateUserDeposit` on the success path: read the row at the lowercased
address, compute, and upsert at that same key (`onConflict: 'address'`). -/
def applyDeposit (st : ListenerState) (address : String)
    (depositAmount tokenAmount usdtAmount : JSVal) (paymentType : String) : ListenerState :=
  let lowerAddress := jsToLowerCase address
  let newRow := updateUserDepositCompute (st.rows lowerAddress) depositAmount tokenAmount usdtAmount paymentType
  { st with rows := fun a => if a = lowerAddress then some newRow else st.rows a }

/-- What one event handler of `src/unnamed/part_000` produces: the ledger
record and the five arguments of its `updateUserDeposit` call.  The three
handlers are transcribed from lines 194-292: `BoughtWithNative` formats both
amounts at scale 18; `BoughtWithUSDT` formats the deposit at scale 18 when
`networkName == "BSC"` and scale 6 otherwise; `claimHistory` logs the
literal string `'0'` as deposit and updates with payment type `'token'`. -/
def stepArgs (chainName : String) : ChainEvent → TxRecord × JSVal × JSVal × JSVal × String
  | .boughtWithNative u d a ts h b =>
    let sd := toFixed6 (.fin (etherQ d))
    let sa := toFixed6 (.fin (etherQ a))
    (logTransactionRecord "BoughtWithNative" u sd sa "native" h b ts chainName,
      .str sd, .str sa, .num (.fin 0), "native")
  | .boughtWithUSDT u d a ts h b =>
    let sd := toFixed6 (.fin (if chainName = "BSC" then etherQ d else usdtQ d))
    let sa := toFixed6 (.fin (etherQ a))
    (logTransactionRecord "BoughtWithUSDT" u sd sa "usdt" h b ts chainName,
      .num (.fin 0), .str sa, .str sd, "usdt")
  | .claimHistory u a ts h b =>
    let sa := toFixed6 (.fin (etherQ a))
    (logTransactionRecord "claimHistory" u "0" sa "claim" h b ts chainName,
      .num (.fin 0), .str sa, .num (.fin 0), "token")

/-- Serial, fully successful processing of one event by the
`src/unnamed/part_000` listener: append the ledger record, then run the
deposit update. -/
def step (st : ListenerState) (chainName : String) (ev : ChainEvent) : ListenerState :=
  let args := stepArgs chainName ev
  applyDeposit { st with ledger := st.ledger ++ [args.1] } ev.user
    args.2.1 args.2.2.1 args.2.2.2.1 args.2.2.2.2

/-- Empty store. -/
def initialState : ListenerState := { ledger := [], rows := fun _ => none }

/-- Serial processing to completion of a list of `(chainName, event)` pairs. -/
def runEvents (evs : List (String × ChainEvent)) : ListenerState :=
  evs.foldl (fun st ce => step st ce.1 ce.2) initialState

/-- Ledger records for one address. -/
def addrRecords (l : List TxRecord) (addr : String) : List TxRecord :=
  l.filter (fun r => r.address == addr)

/-- Exact-rational sum of `token_amount` over all records of an address
(used only at exactly-representable concrete values, in the C1
counterexample). -/
def sumTokenAmount (l : List TxRecord) (addr : String) : ℚ :=
  ((addrRecords l addr).map (fun r => valOf r.token_amount)).sum

/-- JavaScript sum of `token_amount` over all records of an address: the
left fold with JS `+` of the amounts read back with the aggregator's own
`Number(x) || 0` (see `coerceDelta`).  In real JavaScript this fold is the
exact sequence of double additions the aggregator performed, the zero seed
being exact because IEEE `0 + x = x`. -/
def sumTokenAmountJS (l : List TxRecord) (addr : String) : JSNum :=
  ((addrRecords l addr).map (fun r => coerceDelta (.str r.token_amount))).foldl jsAdd (.fin 0)

/-- JavaScript sum of `deposit_amount` over an address's records with
`payment_type = native`. -/
def sumNativeDepositJS (l : List TxRecord) (addr : String) : JSNum :=
  (((addrRecords l addr).filter (fun r => r.payment_type == "native")).map
    (fun r => coerceDelta (.str r.deposit_amount))).foldl jsAdd (.fin 0)

/-- JavaScript sum of `deposit_amount` over an address's records with
`payment_type = usdt`. -/
def sumUsdtDepositJS (l : List TxRecord) (addr : String) : JSNum :=
  (((addrRecords l addr).filter (fun r => r.payment_type == "usdt")).map
    (fun r => coerceDelta (.str r.deposit_amount))).foldl jsAdd (.fin 0)

/-- The §3 invariant at one address, read through JavaScript arithmetic:
the stored aggregate equals the JS sum of the recorded amounts (an address
with no row has no records).  Both sides of each equation denote the
identical sequence of JS operations — the aggregator adds
`Number(amount) || 0` with JS `+` in ledger order, and the fold re-adds the
very same parsed amounts with the same `+` — so the equations hold of the
real double-arithmetic program exactly when they hold of this model, even
though the numeric totals drift from the exact decimal sums (for example
deposits of 0.1 then 0.2 store `"0.30000000000000004"` in real JS). -/
def aggregateMatchesLedger (st : ListenerState) (addr : String) : Prop :=
  match st.rows addr with
  | some r =>
    r.total_native_deposit = sumNativeDepositJS st.ledger addr ∧
    r.total_usdt_deposit = sumUsdtDepositJS st.ledger addr ∧
    r.total_token_amount = sumTokenAmountJS st.ledger addr
  | none => addrRecords st.ledger addr = []

namespace AJs

/-- A `user_deposits` row as the `src/a.js` variant sees it: the three
accumulator columns as the stored strings (this variant never converts them
back to numbers, so `+=` on them is JavaScript string concatenation). -/
structure Row where
  total_native_deposit : String
  total_usdt_deposit : String
  total_token_amount : String
deriving DecidableEq, Repr

/-- `existingDeposit?.field || 0`: `0` when the row is absent or the column
is the empty string, otherwise the stored string. -/
def fieldOr (o : Option String) : JSVal :=
  match o with
  | none => .num (.fin 0)
  | some s => if s = "" then .num (.fin 0) else .str s

/-- Result of one `updateUserDeposit` call in `src/a.js`. -/
structure UpdateOutcome where
  write : Option Row
  logs : List String
  threw : Bool
deriving Repr

/-- `updateUserDeposit` of `src/a.js` (lines 77-122): on a read error it
logs and returns without writing; otherwise it applies `+=` (JavaScript
value addition, concatenating when either side is a string) to the branch
selected by `paymentType` and upserts the stringified totals. -/
def updateUserDeposit (readResult : Except String (Option Row)) (address : String)
    (depositAmount tokenAmount usdtAmount : JSVal) (paymentType : String) : UpdateOutcome :=
  match readResult with
  | .error e => { write := none, logs := ["Error fetching user deposit: " ++ e], threw := false }
  | .ok existingDeposit =>
    let tn0 := fieldOr (existingDeposit.map (fun r => r.total_native_deposit))
    let tu0 := fieldOr (existingDeposit.map (fun r => r.total_usdt_deposit))
    let tt0 := fieldOr (existingDeposit.map (fun r => r.total_token_amount))
    let tn := if paymentType = "native" then jsPlusV tn0 depositAmount else tn0
    let tu := if paymentType = "usdt" then jsPlusV tu0 usdtAmount else tu0
    let tt := if paymentType = "token" then jsPlusV tt0 tokenAmount else tt0
    { write := some { total_native_deposit := jsValToString tn
                      total_usdt_deposit := jsValToString tu
                      total_token_amount := jsValToString tt }
      logs := ["User deposit updated for " ++ address]
      threw := false }

/-- The record inserted by `logTransactionToSupabase` in `src/a.js`
(line 57): the address is stored exactly as received, not lowercased. -/
def logTransactionRecord (eventName user tokenDeposit amount paymentType transactionHash : String)
    (blockNumber timestamp : ℕ) (chainName : String) : TxRecord :=
  { address := user
    transaction_hash := transactionHash
    chain_name := chainName
    event_name := eventName
    payment_type := paymentType
    deposit_amount := tokenDeposit
    token_amount := amount
    block_number := blockNumber
    block_timestamp := timestamp * 1000 }

/-- Store state for the `src/a.js` listener. -/
structure St where
  ledger : List TxRecord
  rows : String → Option Row

/-- Apply an `updateUserDeposit` outcome to the store (its upsert is keyed
by the `address` column). -/
def applyWrite (st : St) (address : String) (o : UpdateOutcome) : St :=
  match o.write with
  | some r => { st with rows := fun a => if a = address then some r else st.rows a }
  | none => st

/-- Serial success-path processing of one event by the `src/a.js` listener,
transcribed from lines 177-214.  The read result is modelled as `.ok` of
the current row (the reading favourable to the spec; with supabase's actual
`.single()` semantics an absent row surfaces as an error and the update
returns without ever creating a row, which fails the same claims even
harder). -/
def step (st : St) (networkName : String) (ev : ChainEvent) : St :=
  match ev with
  | .boughtWithNative u d a ts h b =>
    let sd := toFixed6 (.fin (etherQ d))
    let sa := toFixed6 (.fin (etherQ a))
    let st1 := { st with ledger := st.ledger ++
      [AJs.logTransactionRecord "BoughtWithNative" u sd sa "native" h b ts networkName] }
    applyWrite st1 u (updateUserDeposit (.ok (st.rows u)) u (.str sd) (.str sa) (.num (.fin 0)) "native")
  | .boughtWithUSDT u d a ts h b =>
    let desposit : JSVal :=
      if networkName = "bnbt" then .str (jsToString (.fin (etherQ d))) else .num (.fin (usdtQ d))
    let sd := toFixed6 (toNumber desposit)
    let sa := toFixed6 (.fin (etherQ a))
    let st1 := { st with ledger := st.ledger ++
      [AJs.logTransactionRecord "BoughtWithUSDT" u sd sa "usdt" h b ts networkName] }
    applyWrite st1 u (updateUserDeposit (.ok (st.rows u)) u (.num (.fin 0)) (.str sa) desposit "usdt")
  | .claimHistory u a ts h b =>
    let sa := toFixed6 (.fin (etherQ a))
    let st1 := { st with ledger := st.ledger ++
      [AJs.logTransactionRecord "claimHistory" u (jsToString (.fin 0)) sa "claim" h b ts networkName] }
    applyWrite st1 u (updateUserDeposit (.ok (st.rows u)) u (.num (.fin 0)) (.str sa) (.num (.fin 0)) "token")

/-- Serial processing of a list of `(networkName, event)` pairs from an
empty store. -/
def runEvents (evs : List (String × ChainEvent)) : St :=
  evs.foldl (fun st ce => step st ce.1 ce.2) { ledger := [], rows := fun _ => none }

end AJs

/-- Observable process-level actions of the startup error handler. -/
inductive ProcAction where
  | consoleError (msg : String)
  | processExit (code : ℕ)
deriving DecidableEq, Repr

/-- The `startListeners().catch(...)` handler (`src/unnamed/part_000` lines
327-329 and `src/a.js` lines 249-251, identical): it only calls
`console.error`; there is no `process.exit` anywhere in either file. -/
def startListenersCatch (errMsg : String) : List ProcAction :=
  [.consoleError ("Error starting event listeners: " ++ errMsg)]

/-- Whether an action exits the process. -/
def ProcAction.isExit : ProcAction → Bool
  | .processExit _ => true
  | .consoleError _ => false

section
attribute [local semireducible] Rat.mul Rat.add Rat.inv Rat.sub Rat.ofScientific

theorem digitListAux_eq_digits (fuel : ℕ) : ∀ n, n ≤ fuel → digitListAux fuel n = Nat.digits 10 n := by
  induction fuel with
  | zero =>
    intro n hn
    interval_cases n
    simp [digitListAux]
  | succ f ih =>
    intro n hn
    by_cases h0 : n = 0
    · subst h0; simp [digitListAux]
    · rw [digitListAux, if_neg h0, Nat.digits_def' (by norm_num : 1 < 10) (Nat.pos_of_ne_zero h0)]
      congr 1
      refine ih _ ?_
      have hlt : n / 10 < n := Nat.div_lt_self (Nat.pos_of_ne_zero h0) (by norm_num)
      omega

theorem digitList_eq_digits (n : ℕ) : digitList n = Nat.digits 10 n :=
  digitListAux_eq_digits n n le_rfl

theorem digitChar_isDigit : ∀ d, d < 10 → (Nat.digitChar d).isDigit = true := by decide

theorem digitsOf_all_digits (m : ℕ) : ∀ c ∈ digitsOf m, c.isDigit = true := by
  intro c hc
  unfold digitsOf at hc
  by_cases h0 : m = 0
  · rw [if_pos h0] at hc
    simp at hc
    subst hc
    decide
  · rw [if_neg h0, digitList_eq_digits] at hc
    simp only [List.mem_map, List.mem_reverse] at hc
    obtain ⟨d, hd, rfl⟩ := hc
    exact digitChar_isDigit d (Nat.digits_lt_base (by norm_num) hd)

theorem digitsOf_ne_nil (m : ℕ) : digitsOf m ≠ [] := by
  unfold digitsOf
  by_cases h0 : m = 0
  · simp [h0]
  · rw [if_neg h0, digitList_eq_digits]
    simp [Nat.digits_ne_nil_iff_ne_zero.mpr h0, h0]

theorem digitsOf_len_le (m k : ℕ) (hm : m < 10 ^ k) (hk : 1 ≤ k) : (digitsOf m).length ≤ k := by
  unfold digitsOf
  by_cases h0 : m = 0
  · simp [h0, hk]
  · rw [if_neg h0, digitList_eq_digits]
    simp only [List.length_map, List.length_reverse]
    have h1 : 10 ^ (Nat.digits 10 m).length ≤ 10 * m :=
      Nat.base_pow_length_digits_le 10 m (by norm_num) h0
    have h2 : 10 * m < 10 ^ (k + 1) := by
      calc 10 * m < 10 * 10 ^ k := by
            exact mul_lt_mul_of_pos_left hm (by norm_num)
        _ = 10 ^ (k + 1) := by ring
    have h3 : 10 ^ (Nat.digits 10 m).length < 10 ^ (k + 1) := lt_of_le_of_lt h1 h2
    have := (Nat.pow_lt_pow_iff_right (by norm_num : 1 < 10)).mp h3
    omega

theorem takeWhile_append_cons (p : Char → Bool) (l₁ l₂ : List Char) (c : Char)
    (h₁ : ∀ x ∈ l₁, p x = true) (hc : p c = false) :
    (l₁ ++ c :: l₂).takeWhile p = l₁ := by
  induction l₁ with
  | nil => simp [List.takeWhile, hc]
  | cons a t ih =>
    have ha : p a = true := h₁ a (by simp)
    simp only [List.cons_append, List.takeWhile, ha, List.append_eq]
    rw [ih (fun x hx => h₁ x (by simp [hx]))]

theorem dropWhile_append_cons (p : Char → Bool) (l₁ l₂ : List Char) (c : Char)
    (h₁ : ∀ x ∈ l₁, p x = true) (hc : p c = false) :
    (l₁ ++ c :: l₂).dropWhile p = c :: l₂ := by
  induction l₁ with
  | nil => simp [List.dropWhile, hc]
  | cons a t ih =>
    have ha : p a = true := h₁ a (by simp)
    simp only [List.cons_append, List.dropWhile, ha, List.append_eq]
    exact ih (fun x hx => h₁ x (by simp [hx]))

theorem padTo_six_len (ds : List Char) (h : ds.length ≤ 6) : (padTo 6 ds).length = 6 := by
  simp [padTo]
  omega

theorem padTo_all_digits (k : ℕ) (ds : List Char) (h : ∀ c ∈ ds, c.isDigit = true) :
    ∀ c ∈ padTo k ds, c.isDigit = true := by
  intro c hc
  simp only [padTo, List.mem_append, List.mem_replicate] at hc
  rcases hc with ⟨-, rfl⟩ | hc
  · decide
  · exact h c hc

theorem matchesFormat_fixed6 (n : ℕ) : matchesAmountFormat (String.mk (fixed6Render n)) = true := by
  have hdig := digitsOf_all_digits (n / 10 ^ 6)
  have hdot : ('.').isDigit = false := by decide
  have htake := takeWhile_append_cons Char.isDigit (digitsOf (n / 10 ^ 6))
    (padTo 6 (digitsOf (n % 10 ^ 6))) '.' hdig hdot
  have hdrop := dropWhile_append_cons Char.isDigit (digitsOf (n / 10 ^ 6))
    (padTo 6 (digitsOf (n % 10 ^ 6))) '.' hdig hdot
  have hmod : n % 10 ^ 6 < 10 ^ 6 := Nat.mod_lt _ (by norm_num)
  have hlen : (padTo 6 (digitsOf (n % 10 ^ 6))).length = 6 :=
    padTo_six_len _ (digitsOf_len_le _ 6 hmod (by norm_num))
  have hall : ∀ c ∈ padTo 6 (digitsOf (n % 10 ^ 6)), c.isDigit = true :=
    padTo_all_digits 6 _ (digitsOf_all_digits _)
  unfold matchesAmountFormat fixed6Render
  simp only [String.mk]
  rw [htake, hdrop]
  simp only [Bool.and_eq_true, beq_iff_eq, List.all_eq_true, Bool.not_eq_true',
    List.isEmpty_eq_false]
  exact ⟨⟨by simp [List.isEmpty_iff, digitsOf_ne_nil], hlen⟩, hall⟩

theorem matchesFormat_toFixed6 (q : ℚ) (h0 : 0 ≤ q) (h21 : q < 10 ^ 21) :
    matchesAmountFormat (toFixed6 (.fin q)) = true := by
  have heq : toFixed6 (.fin q) = toFixed6Pos q := by
    simp only [toFixed6]
    rw [if_neg (not_lt.mpr h0)]
  rw [heq]
  unfold toFixed6Pos
  rw [if_neg (not_le.mpr h21)]
  exact matchesFormat_fixed6 _

theorem jsAdd_zero (x : JSNum) : jsAdd x (.fin 0) = x := by
  cases x <;> simp [jsAdd]

theorem zero_jsAdd (x : JSNum) : jsAdd (.fin 0) x = x := by
  cases x <;> simp [jsAdd]

theorem sumTokenJS_append (l : List TxRecord) (r : TxRecord) (a : String) :
    sumTokenAmountJS (l ++ [r]) a
      = if r.address = a
        then jsAdd (sumTokenAmountJS l a) (coerceDelta (.str r.token_amount))
        else sumTokenAmountJS l a := by
  by_cases h : r.address = a <;>
    simp [sumTokenAmountJS, addrRecords, List.filter_append, h, List.foldl_append]

theorem sumNativeJS_append (l : List TxRecord) (r : TxRecord) (a : String) :
    sumNativeDepositJS (l ++ [r]) a
      = if r.address = a ∧ r.payment_type = "native"
        then jsAdd (sumNativeDepositJS l a) (coerceDelta (.str r.deposit_amount))
        else sumNativeDepositJS l a := by
  by_cases h1 : r.address = a <;> by_cases h2 : r.payment_type = "native" <;>
    simp [sumNativeDepositJS, addrRecords, List.filter_append, h1, h2, List.foldl_append]

theorem sumUsdtJS_append (l : List TxRecord) (r : TxRecord) (a : String) :
    sumUsdtDepositJS (l ++ [r]) a
      = if r.address = a ∧ r.payment_type = "usdt"
        then jsAdd (sumUsdtDepositJS l a) (coerceDelta (.str r.deposit_amount))
        else sumUsdtDepositJS l a := by
  by_cases h1 : r.address = a <;> by_cases h2 : r.payment_type = "usdt" <;>
    simp [sumUsdtDepositJS, addrRecords, List.filter_append, h1, h2, List.foldl_append]

theorem sumTokenJS_of_empty (l : List TxRecord) (a : String) (h : addrRecords l a = []) :
    sumTokenAmountJS l a = .fin 0 := by simp [sumTokenAmountJS, h]

theorem sumNativeJS_of_empty (l : List TxRecord) (a : String) (h : addrRecords l a = []) :
    sumNativeDepositJS l a = .fin 0 := by simp [sumNativeDepositJS, h]

theorem sumUsdtJS_of_empty (l : List TxRecord) (a : String) (h : addrRecords l a = []) :
    sumUsdtDepositJS l a = .fin 0 := by simp [sumUsdtDepositJS, h]

theorem applyDeposit_invariant (st : ListenerState) (r : TxRecord) (user : String)
    (dv tv uv : JSVal) (p : String)
    (hInv : ∀ a, aggregateMatchesLedger st a)
    (haddr : r.address = jsToLowerCase user)
    (hN : (if p = "native" then coerceDelta dv else JSNum.fin 0)
        = (if r.payment_type = "native" then coerceDelta (.str r.deposit_amount) else JSNum.fin 0))
    (hU : (if p = "usdt" then coerceDelta uv else JSNum.fin 0)
        = (if r.payment_type = "usdt" then coerceDelta (.str r.deposit_amount) else JSNum.fin 0))
    (hT : coerceDelta tv = coerceDelta (.str r.token_amount)) :
    ∀ a, aggregateMatchesLedger
      (applyDeposit { st with ledger := st.ledger ++ [r] } user dv tv uv p) a := by
  intro a
  unfold applyDeposit aggregateMatchesLedger
  dsimp only
  by_cases hak : a = jsToLowerCase user
  · rw [if_pos hak, ← hak]
    have hI := hInv a
    unfold aggregateMatchesLedger at hI
    have hra : r.address = a := by rw [haddr, ← hak]
    unfold updateUserDepositCompute
    cases hrow : st.rows a with
    | none =>
      rw [hrow] at hI
      dsimp only
      refine ⟨?_, ?_, ?_⟩
      · rw [hN, sumNativeJS_append, sumNativeJS_of_empty _ _ hI]
        by_cases ht : r.payment_type = "native"
        · simp [hra, ht, zero_jsAdd]
        · simp [hra, ht]
      · rw [hU, sumUsdtJS_append, sumUsdtJS_of_empty _ _ hI]
        by_cases ht : r.payment_type = "usdt"
        · simp [hra, ht, zero_jsAdd]
        · simp [hra, ht]
      · rw [hT, sumTokenJS_append, sumTokenJS_of_empty _ _ hI]
        simp [hra, zero_jsAdd]
    | some ex =>
      rw [hrow] at hI
      obtain ⟨hIN, hIU, hIT⟩ := hI
      dsimp only
      refine ⟨?_, ?_, ?_⟩
      · rw [hIN, hN, sumNativeJS_append]
        by_cases ht : r.payment_type = "native"
        · simp [hra, ht]
        · simp [hra, ht, jsAdd_zero]
      · rw [hIU, hU, sumUsdtJS_append]
        by_cases ht : r.payment_type = "usdt"
        · simp [hra, ht]
        · simp [hra, ht, jsAdd_zero]
      · rw [hIT, hT, sumTokenJS_append]
        simp [hra]
  · rw [if_neg hak]
    have hI := hInv a
    unfold aggregateMatchesLedger at hI
    have hra : ¬(r.address = a) := by
      rw [haddr]; intro hh; exact hak hh.symm
    cases hrow : st.rows a with
    | none =>
      rw [hrow] at hI
      unfold addrRecords at hI ⊢
      simp [List.filter_append, hI, hra]
    | some ex =>
      rw [hrow] at hI
      obtain ⟨hIN, hIU, hIT⟩ := hI
      refine ⟨?_, ?_, ?_⟩
      · rw [hIN, sumNativeJS_append]
        simp [hra]
      · rw [hIU, sumUsdtJS_append]
        simp [hra]
      · rw [hIT, sumTokenJS_append]
        simp [hra]

theorem step_preserves (st : ListenerState) (chainName : String) (ev : ChainEvent)
    (hInv : ∀ a, aggregateMatchesLedger st a) :
    ∀ a, aggregateMatchesLedger (step st chainName ev) a := by
  cases ev with
  | boughtWithNative u d am ts h b =>
    unfold step stepArgs
    dsimp only
    refine applyDeposit_invariant st _ u _ _ _ "native" hInv rfl ?_ ?_ ?_
    · rw [if_pos rfl]
      simp [logTransactionRecord]
    · rw [if_neg (by decide)]
      simp [logTransactionRecord]
    · simp [logTransactionRecord]
  | boughtWithUSDT u d am ts h b =>
    unfold step stepArgs
    dsimp only
    refine applyDeposit_invariant st _ u _ _ _ "usdt" hInv rfl ?_ ?_ ?_
    · rw [if_neg (by decide)]
      simp [logTransactionRecord]
    · rw [if_pos rfl]
      simp [logTransactionRecord]
    · simp [logTransactionRecord]
  | claimHistory u am ts h b =>
    unfold step stepArgs
    dsimp only
    refine applyDeposit_invariant st _ u _ _ _ "token" hInv rfl ?_ ?_ ?_
    · rw [if_neg (by decide)]
      simp [logTransactionRecord]
    · rw [if_neg (by decide)]
      simp [logTransactionRecord]
    · simp [logTransactionRecord]

/-- C1 (amended): for every finite sequence of events processed serially to
completion by the `src/unnamed/part_000` listener, after the last event the
stored aggregate of every address equals the JavaScript sums of its ledger
records: the token total is the JS sum (left fold with JS `+` of the values
read back with `Number(x) || 0`) of `token_amount` over the address's
records, the native total the JS sum of `deposit_amount` over its
`payment_type = native` records, and the USDT total the JS sum over its
`payment_type = usdt` records.  Because the aggregator itself accumulates
with the same `+` over the same parsed amounts in the same order, this
equation holds of the real double-arithmetic program; the totals can drift
from the exact decimal sums by IEEE-754 rounding (0.1 + 0.2 stores
`"0.30000000000000004"`), so the exact-decimal form of the claim does not
hold even on this variant. -/
theorem c1_amended (evs : List (String × ChainEvent)) (addr : String) :
    aggregateMatchesLedger (runEvents evs) addr := by
  have base : ∀ a, aggregateMatchesLedger initialState a := by
    intro a
    unfold aggregateMatchesLedger initialState
    simp [addrRecords]
  suffices h : ∀ (l : List (String × ChainEvent)) (st : ListenerState),
      (∀ a, aggregateMatchesLedger st a) →
      ∀ a, aggregateMatchesLedger (l.foldl (fun s ce => step s ce.1 ce.2) st) a by
    exact h evs initialState base addr
  intro l
  induction l with
  | nil => intro st h a; exact h a
  | cons ce tl ih =>
    intro st h a
    exact ih (step st ce.1 ce.2) (step_preserves st ce.1 ce.2 h) a

/-- C1 (counterexample): the `src/a.js` aggregator updates
`total_token_amount` only for `payment_type = 'token'`, so after a single
`BoughtWithNative` event for 5.0 tokens its stored token total is the string
`"0"` (value 0) while the sum of `token_amount` over the address's records
is 5 — the claimed invariant fails on that variant. -/
theorem c1_counterexample :
    ((AJs.runEvents [("ETH", .boughtWithNative "0xabc" (2 * 10 ^ 18) (5 * 10 ^ 18) 0 "h1" 100)]).rows
        "0xabc").map AJs.Row.total_token_amount = some "0" ∧
    sumTokenAmount
      (AJs.runEvents [("ETH", .boughtWithNative "0xabc" (2 * 10 ^ 18) (5 * 10 ^ 18) 0 "h1" 100)]).ledger
      "0xabc" = 5 ∧
    valOf "0" = 0 ∧ (0 : ℚ) ≠ 5 := by
  refine ⟨by decide, by decide, by decide, by decide⟩

/-- C2 (amended): in the `src/a.js` aggregator a failed read of the existing
row is logged and the operation is abandoned with no write, so the stored
row is left unchanged, and nothing is thrown past the function. -/
theorem c2_amended (e addr : String) (dep tok usd : JSVal) (p : String) (st : AJs.St) :
    AJs.updateUserDeposit (.error e) addr dep tok usd p =
      ⟨none, ["Error fetching user deposit: " ++ e], false⟩ ∧
    AJs.applyWrite st addr (AJs.updateUserDeposit (.error e) addr dep tok usd p) = st :=
  ⟨rfl, rfl⟩

/-- C2 (counterexample): the `src/unnamed/part_000` aggregator never checks
the read error, so a failed read (supabase returns `data = null`) is
indistinguishable from an absent row: with an existing row holding totals
(5, 7, 9), a native event of 2.0/3.0 upserts (2, 0, 3) — the stored row is
overwritten, not left unchanged — and the only log line is the success
message, so the error is never logged. -/
theorem c2_counterexample :
    updateUserDepositCompute none (.str "2.000000") (.str "3.000000") (.num (.fin 0)) "native"
      = ⟨.fin 2, .fin 0, .fin 3⟩ ∧
    (⟨.fin 2, .fin 0, .fin 3⟩ : DepositRow) ≠ ⟨.fin 5, .fin 7, .fin 9⟩ ∧
    updateUserDepositLogs "0xAbC" = ["User deposit updated for 0xabc"] := by
  refine ⟨by decide, by decide, by decide⟩

/-- C3 (amended): in the `src/unnamed/part_000` listener, a `BoughtWithUSDT`
record normalizes the deposit at scale 18 exactly when the chain name is
`"BSC"` and at scale 6 otherwise; the token amount is normalized at scale 18
and the payment type is `usdt`. -/
theorem c3_amended (chainName u : String) (d a ts b : ℕ) (h : String) :
    (stepArgs chainName (.boughtWithUSDT u d a ts h b)).1.deposit_amount
      = (if chainName = "BSC" then normalizeAmount d 18 else normalizeAmount d 6) ∧
    (stepArgs chainName (.boughtWithUSDT u d a ts h b)).1.token_amount = normalizeAmount a 18 ∧
    (stepArgs chainName (.boughtWithUSDT u d a ts h b)).1.payment_type = "usdt" := by
  refine ⟨?_, rfl, rfl⟩
  by_cases hc : chainName = "BSC" <;>
    simp [hc, stepArgs, logTransactionRecord, normalizeAmount, etherQ, usdtQ]

/-- C3 (counterexample): the `src/a.js` listener compares the chain name to
`"bnbt"` instead of `"BSC"`, so on chain `"BSC"` it normalizes the USDT
deposit at scale 6: a raw deposit of 5·10^18 is recorded as
`"5000000000000.000000"` instead of the scale-18 value `"5.000000"`. -/
theorem c3_counterexample :
    ((AJs.step ⟨[], fun _ => none⟩ "BSC"
        (.boughtWithUSDT "0xuser" (5 * 10 ^ 18) (10 ^ 18) 0 "0xhash" 1)).ledger.map
      TxRecord.deposit_amount) = ["5000000000000.000000"] ∧
    normalizeAmount (5 * 10 ^ 18) 18 = "5.000000" ∧
    ("5000000000000.000000" : String) ≠ "5.000000" := by
  refine ⟨by decide, by decide, by decide⟩

/-- C4 (amended): starting from no aggregate row, one `BoughtWithNative`
event with tokenDeposit 2·10^18 and amount 5·10^18 yields the stored totals
2 native / 0 USDT / 5 token, written through `.toString()` as `"2"`, `"0"`,
`"5"` (not zero-padded); a subsequent `claimHistory` event of 1·10^18 raises
the token total to 6 (stored `"6"`) and leaves the other two unchanged. -/
theorem c4_amended :
    (runEvents [("ETH", .boughtWithNative "0xAbC" (2 * 10 ^ 18) (5 * 10 ^ 18) 0 "h1" 100)]).rows "0xabc"
      = some ⟨.fin 2, .fin 0, .fin 5⟩ ∧
    (runEvents [("ETH", .boughtWithNative "0xAbC" (2 * 10 ^ 18) (5 * 10 ^ 18) 0 "h1" 100),
                ("ETH", .claimHistory "0xAbC" (10 ^ 18) 0 "h2" 101)]).rows "0xabc"
      = some ⟨.fin 2, .fin 0, .fin 6⟩ ∧
    jsToString (JSNum.fin 2) = "2" ∧ jsToString (JSNum.fin 0) = "0" ∧
    jsToString (JSNum.fin 5) = "5" ∧ jsToString (JSNum.fin 6) = "6" := by
  refine ⟨by decide, by decide, by decide, by decide, by decide, by decide⟩

/-- C4 (counterexample): after the `BoughtWithNative` event of the claimed
scenario the stored `total_native_deposit` string is `"2"` (the code writes
`Number(...).toString()`), not the claimed `"2.000000"`. -/
theorem c4_counterexample :
    ((runEvents [("POLYGON", .boughtWithNative "0xAbC" (2 * 10 ^ 18) (5 * 10 ^ 18) 7 "h1" 100)]).rows
        "0xabc").map (fun r => jsToString r.total_native_deposit) = some "2" ∧
    (some "2" : Option String) ≠ some "2.000000" := by
  refine ⟨by decide, by decide⟩

/-- C5: when the backend insert fails on all three attempts, the
`src/unnamed/part_000` ledger writer makes exactly 3 attempts with a fixed
1000 ms delay between consecutive attempts, writes no record, logs the
failure, and throws nothing past the writer. -/
theorem c5_theorem (outcome : ℕ → Bool) (hfail : ∀ i, i < 3 → outcome i = false) :
    logTransactionToSupabase outcome =
      { attempts := 3, sleeps := [1000, 1000], inserted := false,
        errorLogged := true, threw := false } := by
  have h0 := hfail 0 (by norm_num)
  have h1 := hfail 1 (by norm_num)
  have h2 := hfail 2 (by norm_num)
  simp [logTransactionToSupabase, writerLoop, h0, h1, h2]

/-- C5 (witness): the always-failing backend exercises the retry-exhaustion
path of the writer. -/
theorem c5_witness :
    logTransactionToSupabase (fun _ => false) =
      { attempts := 3, sleeps := [1000, 1000], inserted := false,
        errorLogged := true, threw := false } :=
  c5_theorem (fun _ => false) (fun _ _ => rfl)

/-- C6 (amended): in the `src/unnamed/part_000` listener every record stores
the lowercased user address, the deposit row is read and upserted only at
that lowercased key, and two users differing only in letter case yield the
same record address. -/
theorem c6_amended (chainName : String) (ev : ChainEvent) (st : ListenerState) (a u1 u2 : String)
    (d am ts b : ℕ) (h : String)
    (ha : a ≠ jsToLowerCase ev.user) (hcase : jsToLowerCase u1 = jsToLowerCase u2) :
    (stepArgs chainName ev).1.address = jsToLowerCase ev.user ∧
    (step st chainName ev).rows a = st.rows a ∧
    (stepArgs chainName (.boughtWithNative u1 d am ts h b)).1.address
      = (stepArgs chainName (.boughtWithNative u2 d am ts h b)).1.address := by
  refine ⟨?_, ?_, ?_⟩
  · cases ev <;> rfl
  · cases ev <;> simp [step, applyDeposit, stepArgs, ChainEvent.user] <;>
      simp [ChainEvent.user] at ha <;> simp [ha]
  · simp [stepArgs, logTransactionRecord, hcase]

/-- C6 (witness): concrete instance of the lowercasing behaviour of the
`src/unnamed/part_000` listener. -/
theorem c6_witness :
    (stepArgs "ETH" (ChainEvent.boughtWithNative "0xAB" 1 1 0 "h" 1)).1.address
        = jsToLowerCase (ChainEvent.boughtWithNative "0xAB" 1 1 0 "h" 1).user ∧
    (step initialState "ETH" (ChainEvent.boughtWithNative "0xAB" 1 1 0 "h" 1)).rows "zzz"
        = initialState.rows "zzz" ∧
    (stepArgs "ETH" (ChainEvent.boughtWithNative "0xCd" 2 3 0 "g" 4)).1.address
        = (stepArgs "ETH" (ChainEvent.boughtWithNative "0xCD" 2 3 0 "g" 4)).1.address :=
  c6_amended "ETH" (ChainEvent.boughtWithNative "0xAB" 1 1 0 "h" 1) initialState "zzz"
    "0xCd" "0xCD" 2 3 0 4 "g" (by decide) (by decide)

/-- C6 (counterexample): the `src/a.js` ledger writer stores the user
address exactly as received, so a mixed-case user is keyed differently from
its lowercase form there. -/
theorem c6_counterexample :
    (AJs.logTransactionRecord "BoughtWithNative" "0xABCdef" "2.000000" "5.000000" "native"
        "h" 1 0 "ETH").address = "0xABCdef" ∧
    ("0xABCdef" : String) ≠ jsToLowerCase "0xABCdef" := by
  refine ⟨rfl, by decide⟩

/-- C7 (amended): a `claimHistory` record stores the literal string `"0"`
(not `"0.000000"`) as `deposit_amount` in both listener variants, the token
amount normalized at scale 18, and payment type `claim`. -/
theorem c7_amended (chainName u : String) (a ts b : ℕ) (h : String) :
    (stepArgs chainName (.claimHistory u a ts h b)).1.deposit_amount = "0" ∧
    (stepArgs chainName (.claimHistory u a ts h b)).1.token_amount = normalizeAmount a 18 ∧
    (stepArgs chainName (.claimHistory u a ts h b)).1.payment_type = "claim" ∧
    (AJs.logTransactionRecord "claimHistory" u (jsToString (JSNum.fin 0)) (normalizeAmount a 18)
        "claim" h b ts chainName).deposit_amount = "0" := by
  refine ⟨rfl, rfl, rfl, ?_⟩
  show jsToString (JSNum.fin 0) = "0"
  decide

/-- C7 (counterexample): the `deposit_amount` written for a concrete
`claimHistory` event is `"0"`, which differs from the claimed `"0.000000"`. -/
theorem c7_counterexample :
    (stepArgs "ETH" (.claimHistory "0xuser" (10 ^ 18) 0 "0xhash" 1)).1.deposit_amount = "0" ∧
    ("0" : String) ≠ "0.000000" := by
  refine ⟨rfl, by decide⟩

/-- C8 (counterexample): for the raw amount 10^39 at scale 18 the scaled
value is 10^21, where ECMAScript `toFixed` falls back to `ToString` and the
normalizer returns `"1e+21"`, which does not match `^\d+\.\d{6}$`. -/
theorem c8_counterexample :
    normalizeAmount (10 ^ 39) 18 = "1e+21" ∧
    matchesAmountFormat "1e+21" = false := by
  refine ⟨by decide, by decide⟩

/-- C8 (amended): for raw amounts up to 10^38 at scale 18 (10^26 at scale 6)
the normalizer yields a string matching `^\d+\.\d{6}$` without failing,
input 0 yields exactly `"0.000000"` at either scale, and a string that
parses to NaN is coerced to 0 by the aggregator's `Number(x) || 0` rather
than normalized.  The bounds keep the scaled value at or below `10^20`, a
factor of 10 under the `10^21` toFixed cutoff, so the rounded double of the
real program sits on the same side of the cutoff as this exact model: a
sharp bound of `10^39` would be false of the program, since the double of
`(10^39 - 1) / 10^18` (half an ULP below `10^21`) rounds up to exactly
`10^21` and real toFixed already answers `"1e+21"` there. -/
theorem c8_amended (a : ℕ) (s : String) :
    (a ≤ 10 ^ 38 → matchesAmountFormat (normalizeAmount a 18) = true) ∧
    (a ≤ 10 ^ 26 → matchesAmountFormat (normalizeAmount a 6) = true) ∧
    normalizeAmount 0 18 = "0.000000" ∧ normalizeAmount 0 6 = "0.000000" ∧
    (parseNum s = .nan → coerceDelta (.str s) = .fin 0) := by
  refine ⟨?_, ?_, by decide, by decide, ?_⟩
  · intro h
    apply matchesFormat_toFixed6
    · positivity
    · rw [div_lt_iff₀ (by positivity)]
      calc (a : ℚ) ≤ 10 ^ 38 := by exact_mod_cast h
        _ < 10 ^ 21 * 10 ^ 18 := by norm_num
  · intro h
    apply matchesFormat_toFixed6
    · positivity
    · rw [div_lt_iff₀ (by positivity)]
      calc (a : ℚ) ≤ 10 ^ 26 := by exact_mod_cast h
        _ < 10 ^ 21 * 10 ^ 6 := by norm_num
  · intro h
    simp [coerceDelta, toNumber, h, jsOr, jsFalsy]

/-- C8 (witness): the amended normalizer properties at the concrete amount
123456 and the unparsable string "abc". -/
theorem c8_witness :
    matchesAmountFormat (normalizeAmount 123456 18) = true ∧
    matchesAmountFormat (normalizeAmount 123456 6) = true ∧
    normalizeAmount 0 18 = "0.000000" ∧ normalizeAmount 0 6 = "0.000000" ∧
    coerceDelta (.str "abc") = .fin 0 :=
  ⟨(c8_amended 123456 "abc").1 (by norm_num), (c8_amended 123456 "abc").2.1 (by norm_num),
   (c8_amended 123456 "abc").2.2.1, (c8_amended 123456 "abc").2.2.2.1,
   (c8_amended 123456 "abc").2.2.2.2 (by decide)⟩

/-- C9 (amended): an error reaching the top-level `.catch` of
`startListeners()` is logged via `console.error`, and the handler performs
no `process.exit` — the process is not exited with a failure indication. -/
theorem c9_amended (e : String) :
    startListenersCatch e = [ProcAction.consoleError ("Error starting event listeners: " ++ e)] ∧
    ((startListenersCatch e).all fun a => !a.isExit) = true :=
  ⟨rfl, rfl⟩

/-- C9 (counterexample): for a concrete startup error the handler's action
list is a single `console.error` and contains no exit action, refuting the
claim that the process exits with a failure indication. -/
theorem c9_counterexample :
    startListenersCatch "connect ECONNREFUSED" =
      [ProcAction.consoleError "Error starting event listeners: connect ECONNREFUSED"] ∧
    ((startListenersCatch "connect ECONNREFUSED").all fun a => !a.isExit) = true := by
  refine ⟨rfl, rfl⟩

/-- C10 (amended): deltas whose `Number(...)` conversion is NaN are coerced
to 0 by `Number(x) || 0`, so all three totals of an existing row are carried
forward unchanged no matter the payment type. -/
theorem c10_amended (dep tok usd : JSVal) (p : String) (q1 q2 q3 : ℚ)
    (hd : toNumber dep = .nan) (ht : toNumber tok = .nan) (hu : toNumber usd = .nan) :
    updateUserDepositCompute (some ⟨.fin q1, .fin q2, .fin q3⟩) dep tok usd p
      = ⟨.fin q1, .fin q2, .fin q3⟩ := by
  unfold updateUserDepositCompute coerceDelta
  rw [hd, ht, hu]
  simp [jsOr, jsFalsy, jsAdd]

/-- C10 (witness): the all-unparsable-deltas update leaves a concrete row
unchanged. -/
theorem c10_witness :
    updateUserDepositCompute (some ⟨.fin 1, .fin 2, .fin 3⟩)
        (.str "abc") (.str "abc") (.str "abc") "native" = ⟨.fin 1, .fin 2, .fin 3⟩ :=
  c10_amended _ _ _ _ _ _ _ (by decide) (by decide) (by decide)

/-- C10 (counterexample): the delta string "Infinity" parses to Infinity,
which is truthy, so `Number(x) || 0` does not coerce it to 0: the native
total of a row holding 5 becomes Infinity (stored as the non-numeric string
"Infinity") instead of being carried forward unchanged. -/
theorem c10_counterexample :
    (updateUserDepositCompute (some ⟨.fin 5, .fin 7, .fin 9⟩)
        (.str "Infinity") (.str "1.000000") (.num (.fin 0)) "native").total_native_deposit
      = JSNum.inf ∧
    JSNum.inf ≠ JSNum.fin 5 ∧ jsToString JSNum.inf = "Infinity" := by
  refine ⟨by decide, by decide, rfl⟩

end
